import Mathlib

/-!
Shallow embedding of the glyph character VM: the three-operand engine of
glyph.h and the accumulator variant, with proofs about the specified
behaviour.  Machine integers (uint32 words, uint8 bytes) are modelled as
Nat values truncated at every read and store.
-/

set_option maxRecDepth 4000

namespace Glyph

/-- Word modulus of the uint32 machine words. -/
def W : Nat := 4294967296

/-- Byte modulus of the uint8 memory cells. -/
def B : Nat := 256

/-- Pointwise update of a function, modelling an array store. -/
def upd (f : Nat → Nat) (i v : Nat) : Nat → Nat :=
  fun j => if j = i then v else f j

theorem upd_same (f : Nat → Nat) (i v : Nat) : upd f i v i = v := by
  simp [upd]

theorem upd_other (f : Nat → Nat) (i v : Nat) {j : Nat} (h : j ≠ i) :
    upd f i v j = f j := by
  simp [upd, h]

/-- State of the three-operand engine of glyph.h: a caller-supplied byte
buffer with its size, 128 uint32 registers, 256 uint32 ports, a halt flag. -/
structure GlyphW where
  mem : Nat → Nat
  size : Nat
  reg : Nat → Nat
  port : Nat → Nat
  halt : Bool

/-- The value of the uint32 field holding the buffer size. -/
def msize (vm : GlyphW) : Nat := vm.size % W

/-- R(x): the uint32 value of register x and 127. -/
def rdReg (vm : GlyphW) (x : Nat) : Nat := vm.reg (x &&& 127) % W

/-- Store a uint32 value into register x and 127. -/
def wrReg (vm : GlyphW) (x v : Nat) : GlyphW :=
  { vm with reg := upd vm.reg (x &&& 127) (v % W) }

/-- PC is the register named by the period character, code 46. -/
def pcOf (vm : GlyphW) : Nat := rdReg vm 46

/-- The stack pointer is the register named by the comma character, code 44. -/
def spOf (vm : GlyphW) : Nat := rdReg vm 44

/-- A uint8 read of the raw memory array at index i (no mask: used by
fetch, which guards the index against the size itself). -/
def memAt (vm : GlyphW) (i : Nat) : Nat := vm.mem i % B

/-- M(x): byte read at the masked address x and (size - 1). -/
def mrd (vm : GlyphW) (x : Nat) : Nat := memAt vm (x &&& (msize vm - 1))

/-- M(x) = v: byte store at the masked address x and (size - 1). -/
def mwr (vm : GlyphW) (x v : Nat) : GlyphW :=
  { vm with mem := upd vm.mem (x &&& (msize vm - 1)) (v % B) }

/-- port read: vm.port[x and 255] as a uint32. -/
def prd (vm : GlyphW) (x : Nat) : Nat := vm.port (x &&& 255) % W

/-- port write: vm.port[x and 255] = v. -/
def pwr (vm : GlyphW) (x v : Nat) : GlyphW :=
  { vm with port := upd vm.port (x &&& 255) (v % W) }

/-- PC++ : advance the program counter register by one. -/
def stepPc (vm : GlyphW) : GlyphW := wrReg vm 46 (pcOf vm + 1)

/-- isspace of the C locale: space, tab, newline, vertical tab, form
feed, carriage return. -/
def isWs (b : Nat) : Bool :=
  b == 32 || b == 9 || b == 10 || b == 11 || b == 12 || b == 13

/-- One pass of the whitespace-skipping loop of fetch, with an explicit
iteration bound.  Each iteration requires PC < size, so the loop runs at
most (size - PC) times; skipWs supplies exactly that bound, making this
the while loop of the source. -/
def skipWsAux : Nat → GlyphW → GlyphW
  | 0, vm => vm
  | fuel + 1, vm =>
    if pcOf vm < msize vm ∧ isWs (memAt vm (pcOf vm)) = true then
      skipWsAux fuel (stepPc vm)
    else vm

/-- The whitespace-skipping while loop at the head of fetch. -/
def skipWs (vm : GlyphW) : GlyphW := skipWsAux (msize vm - pcOf vm) vm

/-- fetch: skip whitespace, then return the byte at PC and advance PC, or
set the halt flag and return 0 when PC is at or past the end. -/
def fetch (vm : GlyphW) : Nat × GlyphW :=
  let v := skipWs vm
  if pcOf v < msize v then (memAt v (pcOf v), stepPc v)
  else (0, { v with halt := true })

/-- The switch body of glyph_run, dispatching one fetched opcode byte.
Each case performs its own operand fetches, exactly as in the source. -/
def execOp (vm : GlyphW) (op : Nat) : GlyphW :=
  if op = 43 then
    let p1 := fetch vm; let p2 := fetch p1.2; let p3 := fetch p2.2
    wrReg p3.2 p1.1 (rdReg p3.2 p2.1 + rdReg p3.2 p3.1)
  else if op = 45 then
    let p1 := fetch vm; let p2 := fetch p1.2; let p3 := fetch p2.2
    wrReg p3.2 p1.1 (rdReg p3.2 p2.1 + (W - rdReg p3.2 p3.1))
  else if op = 42 then
    let p1 := fetch vm; let p2 := fetch p1.2; let p3 := fetch p2.2
    wrReg p3.2 p1.1 (rdReg p3.2 p2.1 * rdReg p3.2 p3.1)
  else if op = 47 then
    let p1 := fetch vm; let p2 := fetch p1.2; let p3 := fetch p2.2
    wrReg p3.2 p1.1
      (if rdReg p3.2 p3.1 ≠ 0 then rdReg p3.2 p2.1 / rdReg p3.2 p3.1 else 0)
  else if op = 37 then
    let p1 := fetch vm; let p2 := fetch p1.2; let p3 := fetch p2.2
    wrReg p3.2 p1.1
      (if rdReg p3.2 p3.1 ≠ 0 then rdReg p3.2 p2.1 % rdReg p3.2 p3.1 else 0)
  else if op = 38 then
    let p1 := fetch vm; let p2 := fetch p1.2; let p3 := fetch p2.2
    wrReg p3.2 p1.1 (rdReg p3.2 p2.1 &&& rdReg p3.2 p3.1)
  else if op = 124 then
    let p1 := fetch vm; let p2 := fetch p1.2; let p3 := fetch p2.2
    wrReg p3.2 p1.1 (rdReg p3.2 p2.1 ||| rdReg p3.2 p3.1)
  else if op = 94 then
    let p1 := fetch vm; let p2 := fetch p1.2; let p3 := fetch p2.2
    wrReg p3.2 p1.1 (rdReg p3.2 p2.1 ^^^ rdReg p3.2 p3.1)
  else if op = 126 then
    let p1 := fetch vm; let p2 := fetch p1.2
    wrReg p2.2 p1.1 ((W - 1) - rdReg p2.2 p2.1)
  else if op = 60 then
    let p1 := fetch vm; let p2 := fetch p1.2; let p3 := fetch p2.2
    wrReg p3.2 p1.1 (rdReg p3.2 p2.1 <<< rdReg p3.2 p3.1)
  else if op = 62 then
    let p1 := fetch vm; let p2 := fetch p1.2; let p3 := fetch p2.2
    wrReg p3.2 p1.1 (rdReg p3.2 p2.1 >>> rdReg p3.2 p3.1)
  else if op = 58 then
    let p1 := fetch vm; let p2 := fetch p1.2
    if p2.1 = 103 then
      let p3 := fetch p2.2
      wrReg p3.2 p1.1 p3.1
    else if p2.1 = 120 then
      let p3 := fetch p2.2
      wrReg p3.2 p1.1
        (if p3.1 ≤ 57 then p3.1 + (W - 48) else (p3.1 ||| 32) + 10 + (W - 97))
    else if p2.1 = 46 then
      let p3 := fetch p2.2
      wrReg p3.2 p1.1 (rdReg p3.2 p3.1)
    else p2.2
  else if op = 64 then
    let p1 := fetch vm; let p2 := fetch p1.2
    wrReg p2.2 p1.1 (mrd p2.2 (rdReg p2.2 p2.1))
  else if op = 33 then
    let p1 := fetch vm; let p2 := fetch p1.2
    mwr p2.2 (rdReg p2.2 p1.1) (rdReg p2.2 p2.1)
  else if op = 40 then
    let p1 := fetch vm; let p2 := fetch p1.2
    wrReg p2.2 p1.1 (prd p2.2 (rdReg p2.2 p2.1))
  else if op = 41 then
    let p1 := fetch vm; let p2 := fetch p1.2
    pwr p2.2 (rdReg p2.2 p1.1) (rdReg p2.2 p2.1)
  else if op = 46 then
    let p1 := fetch vm
    wrReg p1.2 46 (rdReg p1.2 p1.1)
  else if op = 63 then
    let p1 := fetch vm; let p2 := fetch p1.2; let p3 := fetch p2.2
    if (p1.1 = 61 ∧ rdReg p3.2 p2.1 ≠ rdReg p3.2 p3.1) ∨
       (p1.1 = 33 ∧ rdReg p3.2 p2.1 = rdReg p3.2 p3.1) ∨
       (p1.1 = 62 ∧ rdReg p3.2 p2.1 ≤ rdReg p3.2 p3.1) ∨
       (p1.1 = 60 ∧ rdReg p3.2 p3.1 ≤ rdReg p3.2 p2.1) then
      wrReg p3.2 46 (pcOf p3.2 + 1)
    else p3.2
  else if op = 59 then
    let p1 := fetch vm
    let v1 := wrReg p1.2 44 (spOf p1.2 + (W - 4))
    let v2 := mwr v1 ((spOf v1 + 0) % W) (pcOf v1)
    let v3 := mwr v2 ((spOf v2 + 1) % W) (pcOf v2 >>> 8)
    let v4 := mwr v3 ((spOf v3 + 2) % W) (pcOf v3 >>> 16)
    let v5 := mwr v4 ((spOf v4 + 3) % W) (pcOf v4 >>> 24)
    wrReg v5 46 (rdReg v5 p1.1)
  else if op = 44 then
    let b0 := mrd vm ((spOf vm + 0) % W)
    let b1 := mrd vm ((spOf vm + 1) % W)
    let b2 := mrd vm ((spOf vm + 2) % W)
    let b3 := mrd vm ((spOf vm + 3) % W)
    let v1 := wrReg vm 46 (b0 ||| (b1 <<< 8) ||| (b2 <<< 16) ||| (b3 <<< 24))
    wrReg v1 44 (spOf v1 + 4)
  else if op = 0 then
    { vm with halt := true }
  else vm

/-- One iteration of the while loop of glyph_run: test the halt flag,
fetch an opcode, bail out if the fetch halted, dispatch. -/
def stepW (vm : GlyphW) : GlyphW :=
  if vm.halt then vm
  else
    let p := fetch vm
    if p.2.halt then p.2 else execOp p.2 p.1

/-- glyph_run, indexed by a bound on the number of loop iterations. -/
def runFuel : Nat → GlyphW → GlyphW
  | 0, vm => vm
  | n + 1, vm => if vm.halt then vm else runFuel n (stepW vm)

/-- glyph_init: zero the whole structure, then bind the buffer and size. -/
def glyph_init (mem : Nat → Nat) (size : Nat) : GlyphW :=
  { mem := mem, size := size, reg := fun _ => 0, port := fun _ => 0,
    halt := false }

/-- State of the accumulator variant: four 256-byte arrays (memory,
registers, call stack, ports), the stack index T, and the halt flag.
The two host callbacks are function-pointer fields in the source; they
are passed as parameters to the evaluator here.  All cells are uint8. -/
structure GlyphA where
  m : Nat → Nat
  r : Nat → Nat
  s : Nat → Nat
  p : Nat → Nat
  T : Nat
  halt : Bool

/-- glyph_getr: reading the comma register pops the call stack
(predecrement of the uint8 index T), any other name reads its slot. -/
def getr (vm : GlyphA) (reg : Nat) : Nat × GlyphA :=
  if reg % B = 44 then
    let T1 := (vm.T + 255) % B
    (vm.s T1 % B, { vm with T := T1 })
  else (vm.r (reg % B) % B, vm)

/-- glyph_setr: writing the comma register pushes onto the call stack
(postincrement of the uint8 index T), any other name writes its slot. -/
def setr (vm : GlyphA) (reg v : Nat) : GlyphA :=
  if reg % B = 44 then
    { vm with s := upd vm.s (vm.T % B) (v % B), T := (vm.T + 1) % B }
  else { vm with r := upd vm.r (reg % B) (v % B) }

/-- glyph_next: read the byte at the uint8 program counter (the period
register), then store the incremented counter back. -/
def nextA (vm : GlyphA) : Nat × GlyphA :=
  let g := getr vm 46
  (g.2.m g.1 % B, setr g.2 46 (g.1 + 1))

/-- The accumulator A is the register named by the equals sign, code 61. -/
def accOf (vm : GlyphA) : Nat := (getr vm 61).1

/-- Invoke an optional host callback with a port number; the callback may
touch the whole machine state, as a C callback can through the host. -/
def appCb (cb : Option (Nat → GlyphA → GlyphA)) (pn : Nat) (vm : GlyphA) :
    GlyphA :=
  match cb with
  | some f => f pn vm
  | none => vm

/-- The switch body of glyph_eval, dispatching one fetched opcode byte;
eo is the port-write callback field e, ei the port-read callback field h. -/
def execA (eo ei : Option (Nat → GlyphA → GlyphA)) (vm : GlyphA)
    (op : Nat) : GlyphA :=
  if op = 32 ∨ op = 12 ∨ op = 10 ∨ op = 11 ∨ op = 13 ∨ op = 9 then
    setr vm 61 0
  else if 48 ≤ op ∧ op ≤ 57 then
    setr vm 61 (accOf vm * 10 + (op - 48))
  else if op = 61 then
    let p := nextA vm
    let v1 := setr p.2 p.1 (accOf p.2)
    setr v1 61 0
  else if op = 39 then
    let p := nextA vm
    setr p.2 61 p.1
  else if op = 43 then
    let n1 := nextA vm; let g1 := getr n1.2 n1.1
    let n2 := nextA g1.2; let g2 := getr n2.2 n2.1
    setr g2.2 61 (g1.1 + g2.1)
  else if op = 45 then
    let n1 := nextA vm; let g1 := getr n1.2 n1.1
    let n2 := nextA g1.2; let g2 := getr n2.2 n2.1
    setr g2.2 61 (g1.1 + (B - g2.1))
  else if op = 42 then
    let n1 := nextA vm; let g1 := getr n1.2 n1.1
    let n2 := nextA g1.2; let g2 := getr n2.2 n2.1
    setr g2.2 61 (g1.1 * g2.1)
  else if op = 47 then
    let n1 := nextA vm; let g1 := getr n1.2 n1.1
    let n2 := nextA g1.2; let g2 := getr n2.2 n2.1
    setr g2.2 61 (if g2.1 ≠ 0 then g1.1 / g2.1 else 0)
  else if op = 37 then
    let n1 := nextA vm; let g1 := getr n1.2 n1.1
    let n2 := nextA g1.2; let g2 := getr n2.2 n2.1
    setr g2.2 61 (if g2.1 ≠ 0 then g1.1 % g2.1 else 0)
  else if op = 38 then
    let n1 := nextA vm; let g1 := getr n1.2 n1.1
    let n2 := nextA g1.2; let g2 := getr n2.2 n2.1
    setr g2.2 61 (g1.1 &&& g2.1)
  else if op = 124 then
    let n1 := nextA vm; let g1 := getr n1.2 n1.1
    let n2 := nextA g1.2; let g2 := getr n2.2 n2.1
    setr g2.2 61 (g1.1 ||| g2.1)
  else if op = 94 then
    let n1 := nextA vm; let g1 := getr n1.2 n1.1
    let n2 := nextA g1.2; let g2 := getr n2.2 n2.1
    setr g2.2 61 (g1.1 ^^^ g2.1)
  else if op = 60 then
    let n1 := nextA vm; let g1 := getr n1.2 n1.1
    setr g1.2 61 (g1.1 <<< accOf g1.2)
  else if op = 62 then
    let n1 := nextA vm; let g1 := getr n1.2 n1.1
    setr g1.2 61 (g1.1 >>> accOf g1.2)
  else if op = 126 then
    let n1 := nextA vm; let g1 := getr n1.2 n1.1
    setr g1.2 61 ((B - 1) - g1.1)
  else if op = 64 then
    let n1 := nextA vm; let n2 := nextA n1.2
    if n1.1 = 60 then
      setr n2.2 n2.1 (n2.2.m (accOf n2.2) % B)
    else if n1.1 = 62 then
      let g := getr n2.2 n2.1
      { g.2 with m := upd g.2.m (accOf g.2) (g.1 % B) }
    else n2.2
  else if op = 35 then
    let n1 := nextA vm; let n2 := nextA n1.2
    if n1.1 = 60 then
      let v1 := appCb ei (accOf n2.2) n2.2
      setr v1 n2.1 (v1.p (accOf v1) % B)
    else if n1.1 = 62 then
      let g := getr n2.2 n2.1
      let v1 := { g.2 with p := upd g.2.p (accOf g.2) (g.1 % B) }
      appCb eo (accOf v1) v1
    else n2.2
  else if op = 63 then
    let n1 := nextA vm; let n2 := nextA n1.2
    if n1.1 = 61 then
      let g := getr n2.2 n2.1
      setr g.2 63 (if accOf g.2 = g.1 then 1 else 0)
    else if n1.1 = 33 then
      let g := getr n2.2 n2.1
      setr g.2 63 (if accOf g.2 ≠ g.1 then 1 else 0)
    else if n1.1 = 60 then
      let g := getr n2.2 n2.1
      setr g.2 63 (if accOf g.2 < g.1 then 1 else 0)
    else if n1.1 = 62 then
      let g := getr n2.2 n2.1
      setr g.2 63 (if g.1 < accOf g.2 then 1 else 0)
    else n2.2
  else if op = 58 then
    if (getr vm 63).1 ≠ 0 then
      let p := nextA vm
      let v1 := setr p.2 p.1 (accOf p.2)
      setr v1 61 0
    else setr vm 61 0
  else if op = 59 then
    let pc := (getr vm 46).1
    let v1 := { vm with s := upd vm.s (vm.T % B) (pc % B), T := (vm.T + 1) % B }
    let p := nextA v1
    let g := getr p.2 p.1
    setr g.2 46 g.1
  else if op = 96 ∨ op = 0 then
    { vm with halt := true }
  else
    let p := nextA vm
    let g := getr p.2 op
    setr g.2 p.1 g.1

/-- One iteration of the while loop of glyph_eval. -/
def stepA (eo ei : Option (Nat → GlyphA → GlyphA)) (vm : GlyphA) : GlyphA :=
  if vm.halt then vm
  else
    let p := nextA vm
    if p.2.halt then p.2 else execA eo ei p.2 p.1

/-- glyph_eval, indexed by a bound on the number of loop iterations. -/
def runAFuel (eo ei : Option (Nat → GlyphA → GlyphA)) :
    Nat → GlyphA → GlyphA
  | 0, vm => vm
  | n + 1, vm => if vm.halt then vm else runAFuel eo ei n (stepA eo ei vm)

/-- The first fetch issued from a state. -/
def f1 (vm : GlyphW) : Nat × GlyphW := fetch vm

/-- The second fetch issued from a state. -/
def f2 (vm : GlyphW) : Nat × GlyphW := fetch (f1 vm).2

/-- The third fetch issued from a state. -/
def f3 (vm : GlyphW) : Nat × GlyphW := fetch (f2 vm).2

/-! Basic facts about the register-file discipline and the frame of the
individual state transformers. -/

theorem and127_eq_mod (x : Nat) : x &&& 127 = x % 128 := by
  have h := Nat.and_pow_two_sub_one_eq_mod x 7
  norm_num at h
  exact h

theorem and255_eq_mod (x : Nat) : x &&& 255 = x % 256 := by
  have h := Nat.and_pow_two_sub_one_eq_mod x 8
  norm_num at h
  exact h

theorem rdReg_wrReg_same (vm : GlyphW) {x y : Nat} (v : Nat)
    (h : y &&& 127 = x &&& 127) : rdReg (wrReg vm x v) y = v % W := by
  simp [rdReg, wrReg, h, upd_same, Nat.mod_mod_of_dvd _ (dvd_refl W)]

theorem rdReg_wrReg_other (vm : GlyphW) {x y : Nat} (v : Nat)
    (h : y &&& 127 ≠ x &&& 127) : rdReg (wrReg vm x v) y = rdReg vm y := by
  simp [rdReg, wrReg, upd_other _ _ _ h]

theorem rdReg_lt (vm : GlyphW) (x : Nat) : rdReg vm x < W := by
  exact Nat.mod_lt _ (by norm_num [W])

theorem mem_wrReg (vm : GlyphW) (x v : Nat) : (wrReg vm x v).mem = vm.mem :=
  rfl

theorem size_wrReg (vm : GlyphW) (x v : Nat) :
    (wrReg vm x v).size = vm.size := rfl

theorem halt_wrReg (vm : GlyphW) (x v : Nat) :
    (wrReg vm x v).halt = vm.halt := rfl

theorem port_wrReg (vm : GlyphW) (x v : Nat) :
    (wrReg vm x v).port = vm.port := rfl

theorem reg_mwr (vm : GlyphW) (x v : Nat) : (mwr vm x v).reg = vm.reg := rfl

theorem size_mwr (vm : GlyphW) (x v : Nat) : (mwr vm x v).size = vm.size :=
  rfl

theorem halt_mwr (vm : GlyphW) (x v : Nat) : (mwr vm x v).halt = vm.halt :=
  rfl

theorem pcOf_wrReg_ne (vm : GlyphW) {x : Nat} (v : Nat)
    (h : x &&& 127 ≠ 46) : pcOf (wrReg vm x v) = pcOf vm := by
  unfold pcOf
  apply rdReg_wrReg_other
  have h46 : (46 : Nat) &&& 127 = 46 := by decide
  rw [h46]
  exact fun hh => h hh.symm

theorem spOf_wrReg_ne (vm : GlyphW) {x : Nat} (v : Nat)
    (h : x &&& 127 ≠ 44) : spOf (wrReg vm x v) = spOf vm := by
  unfold spOf
  apply rdReg_wrReg_other
  have h44 : (44 : Nat) &&& 127 = 44 := by decide
  rw [h44]
  exact fun hh => h hh.symm

/-- A sample machine of the three-operand engine: an 8-byte power-of-two
buffer holding the three register-name bytes a b c, everything else zero. -/
def vmSmall : GlyphW := glyph_init (fun n => List.getD [97, 98, 99] n 0) 8

/-- C7, counterexample: glyph_init with a 16-byte buffer leaves the
stack-pointer register (comma, code 44) at 0, not at the top (16) of the
buffer — the claim that init sets it to the top of the buffer is false. -/
theorem init_sp_not_top :
    spOf (glyph_init (fun _ => 0) 16) = 0 ∧
    spOf (glyph_init (fun _ => 0) 16) ≠ 16 := by
  constructor
  · decide
  · decide

/-- C7 (amended): glyph_init zeroes all registers and all ports, binds
the engine to the caller-owned buffer with its size, clears the halt
flag, and leaves the stack-pointer register 0 like every other register;
because pushes mask their addresses into the power-of-two buffer, the
first pushed frame nevertheless lands at the top of the buffer (the
first byte the call opcode writes sits at address size - 4). -/
theorem glyph_init_state (m : Nat → Nat) (s k : Nat) (hs : s = 2 ^ k)
    (hk2 : 2 ≤ k) (hk31 : k ≤ 31) :
    (∀ x, rdReg (glyph_init m s) x = 0) ∧
    (∀ x, (glyph_init m s).port x = 0) ∧
    (glyph_init m s).mem = m ∧
    (glyph_init m s).size = s ∧
    (glyph_init m s).halt = false ∧
    spOf (glyph_init m s) = 0 ∧
    ((spOf (glyph_init m s) + (W - 4)) % W) &&& (msize (glyph_init m s) - 1)
      = s - 4 := by
  subst hs
  have h4 : (4 : Nat) ≤ 2 ^ k := by
    calc (4 : Nat) = 2 ^ 2 := by norm_num
    _ ≤ 2 ^ k := Nat.pow_le_pow_right (by norm_num) hk2
  have hlt : (2 : Nat) ^ k < W := by
    have : (2 : Nat) ^ k ≤ 2 ^ 31 := Nat.pow_le_pow_right (by norm_num) hk31
    unfold W
    omega
  refine ⟨fun x => ?_, fun x => rfl, rfl, rfl, rfl, ?_, ?_⟩
  · simp [rdReg, glyph_init, W]
  · simp [spOf, rdReg, glyph_init, W]
  · have hsp : spOf (glyph_init m (2 ^ k)) = 0 := by
      simp [spOf, rdReg, glyph_init, W]
    have hms : msize (glyph_init m (2 ^ k)) = 2 ^ k :=
      Nat.mod_eq_of_lt hlt
    rw [hsp, hms, Nat.zero_add, Nat.mod_eq_of_lt (by unfold W; omega),
      Nat.and_pow_two_sub_one_eq_mod]
    obtain ⟨q, hq⟩ : (2 : Nat) ^ k ∣ 2 ^ 32 := pow_dvd_pow 2 (by omega)
    have hW : W = 2 ^ k * q := by unfold W; rw [← hq]; norm_num
    rcases q with _ | q0
    · simp at hW
      exact absurd hW (by unfold W at hW ⊢; omega)
    · have hrw : W - 4 = 2 ^ k * q0 + (2 ^ k - 4) := by
        rw [hW, Nat.mul_succ]
        omega
      rw [hrw, Nat.mul_add_mod, Nat.mod_eq_of_lt (by omega)]

/-- Witness for glyph_init_state with a 16-byte zero buffer. -/
theorem glyph_init_state_witness :
    (16 : Nat) = 2 ^ 4 ∧
    ((∀ x, rdReg (glyph_init (fun _ => 0) 16) x = 0) ∧
     (∀ x, (glyph_init (fun _ => 0) 16).port x = 0) ∧
     (glyph_init (fun _ => 0) 16).mem = (fun _ => 0) ∧
     (glyph_init (fun _ => 0) 16).size = 16 ∧
     (glyph_init (fun _ => 0) 16).halt = false ∧
     spOf (glyph_init (fun _ => 0) 16) = 0 ∧
     ((spOf (glyph_init (fun _ => 0) 16) + (W - 4)) % W) &&&
        (msize (glyph_init (fun _ => 0) 16) - 1) = 16 - 4) :=
  ⟨by decide,
    glyph_init_state (fun _ => 0) 16 4 (by decide) (by decide) (by decide)⟩

/-- C2, counterexample: the division instruction with the program-counter
register (period, code 46) as destination and a zero divisor writes 0 to
the destination, which redirects execution to address 0 instead of the
following instruction (address 4): program bytes 47 46 97 97, all
registers zero.  The claim that execution continues with the following
instruction for every choice of destination register is false. -/
theorem div_zero_pc_dest :
    (stepW (glyph_init (fun n => List.getD [47, 46, 97, 97] n 0) 8)).halt
        = false ∧
    rdReg (stepW (glyph_init (fun n => List.getD [47, 46, 97, 97] n 0) 8)) 97
        = 0 ∧
    pcOf (stepW (glyph_init (fun n => List.getD [47, 46, 97, 97] n 0) 8))
        = 0 ∧
    (0 : Nat) ≠ 4 := by
  refine ⟨by decide, by decide, by decide, by decide⟩

/-- C2 (amended): executing the division opcode (47) or the modulo opcode
(37) with a zero divisor register writes exactly 0 to the destination
register, preserves the halt flag (no runtime fault), and — provided the
destination is not the program-counter register itself — leaves the
program counter at the instruction following the operand bytes. -/
theorem div_mod_by_zero (vm : GlyphW)
    (h : rdReg (f3 vm).2 (f3 vm).1 = 0) :
    execOp vm 47 = wrReg (f3 vm).2 (f1 vm).1 0 ∧
    execOp vm 37 = wrReg (f3 vm).2 (f1 vm).1 0 ∧
    (execOp vm 47).halt = (f3 vm).2.halt ∧
    (execOp vm 37).halt = (f3 vm).2.halt ∧
    ((f1 vm).1 &&& 127 ≠ 46 →
      pcOf (execOp vm 47) = pcOf (f3 vm).2 ∧
      pcOf (execOp vm 37) = pcOf (f3 vm).2) := by
  have h47 : execOp vm 47 = wrReg (f3 vm).2 (f1 vm).1 0 := by
    unfold execOp
    norm_num
    unfold f3 f2 f1 at h ⊢
    simp [h]
  have h37 : execOp vm 37 = wrReg (f3 vm).2 (f1 vm).1 0 := by
    unfold execOp
    norm_num
    unfold f3 f2 f1 at h ⊢
    simp [h]
  refine ⟨h47, h37, ?_, ?_, ?_⟩
  · rw [h47, halt_wrReg]
  · rw [h37, halt_wrReg]
  · intro hne
    constructor
    · rw [h47, pcOf_wrReg_ne _ _ hne]
    · rw [h37, pcOf_wrReg_ne _ _ hne]

theorem wrReg_spec (vm : GlyphW) (x v : Nat) :
    rdReg (wrReg vm x v) x = v % W ∧
    ∀ j, j &&& 127 ≠ x &&& 127 → rdReg (wrReg vm x v) j = rdReg vm j :=
  ⟨rdReg_wrReg_same vm v rfl, fun _ hj => rdReg_wrReg_other vm v hj⟩

/-- C5: every arithmetic, bitwise, shift and complement opcode reads all
its operand registers from the state reached after the operand fetches
and before any register is written, and then writes exactly one result:
the destination register receives the operation applied to the old
operand values (so when the destination aliases a source, as in a=a+a,
the old value is used for every operand), and every register other than
the destination keeps the value it had after the operand fetches. -/
theorem ops_read_before_write (vm : GlyphW) :
    (rdReg (execOp vm 43) (f1 vm).1 =
        (rdReg (f3 vm).2 (f2 vm).1 + rdReg (f3 vm).2 (f3 vm).1) % W ∧
      ∀ j, j &&& 127 ≠ (f1 vm).1 &&& 127 →
        rdReg (execOp vm 43) j = rdReg (f3 vm).2 j) ∧
    (rdReg (execOp vm 45) (f1 vm).1 =
        (rdReg (f3 vm).2 (f2 vm).1 + (W - rdReg (f3 vm).2 (f3 vm).1)) % W ∧
      ∀ j, j &&& 127 ≠ (f1 vm).1 &&& 127 →
        rdReg (execOp vm 45) j = rdReg (f3 vm).2 j) ∧
    (rdReg (execOp vm 42) (f1 vm).1 =
        (rdReg (f3 vm).2 (f2 vm).1 * rdReg (f3 vm).2 (f3 vm).1) % W ∧
      ∀ j, j &&& 127 ≠ (f1 vm).1 &&& 127 →
        rdReg (execOp vm 42) j = rdReg (f3 vm).2 j) ∧
    (rdReg (execOp vm 47) (f1 vm).1 =
        (if rdReg (f3 vm).2 (f3 vm).1 ≠ 0 then
          rdReg (f3 vm).2 (f2 vm).1 / rdReg (f3 vm).2 (f3 vm).1 else 0) % W ∧
      ∀ j, j &&& 127 ≠ (f1 vm).1 &&& 127 →
        rdReg (execOp vm 47) j = rdReg (f3 vm).2 j) ∧
    (rdReg (execOp vm 37) (f1 vm).1 =
        (if rdReg (f3 vm).2 (f3 vm).1 ≠ 0 then
          rdReg (f3 vm).2 (f2 vm).1 % rdReg (f3 vm).2 (f3 vm).1 else 0) % W ∧
      ∀ j, j &&& 127 ≠ (f1 vm).1 &&& 127 →
        rdReg (execOp vm 37) j = rdReg (f3 vm).2 j) ∧
    (rdReg (execOp vm 38) (f1 vm).1 =
        (rdReg (f3 vm).2 (f2 vm).1 &&& rdReg (f3 vm).2 (f3 vm).1) % W ∧
      ∀ j, j &&& 127 ≠ (f1 vm).1 &&& 127 →
        rdReg (execOp vm 38) j = rdReg (f3 vm).2 j) ∧
    (rdReg (execOp vm 124) (f1 vm).1 =
        (rdReg (f3 vm).2 (f2 vm).1 ||| rdReg (f3 vm).2 (f3 vm).1) % W ∧
      ∀ j, j &&& 127 ≠ (f1 vm).1 &&& 127 →
        rdReg (execOp vm 124) j = rdReg (f3 vm).2 j) ∧
    (rdReg (execOp vm 94) (f1 vm).1 =
        (rdReg (f3 vm).2 (f2 vm).1 ^^^ rdReg (f3 vm).2 (f3 vm).1) % W ∧
      ∀ j, j &&& 127 ≠ (f1 vm).1 &&& 127 →
        rdReg (execOp vm 94) j = rdReg (f3 vm).2 j) ∧
    (rdReg (execOp vm 60) (f1 vm).1 =
        (rdReg (f3 vm).2 (f2 vm).1 <<< rdReg (f3 vm).2 (f3 vm).1) % W ∧
      ∀ j, j &&& 127 ≠ (f1 vm).1 &&& 127 →
        rdReg (execOp vm 60) j = rdReg (f3 vm).2 j) ∧
    (rdReg (execOp vm 62) (f1 vm).1 =
        (rdReg (f3 vm).2 (f2 vm).1 >>> rdReg (f3 vm).2 (f3 vm).1) % W ∧
      ∀ j, j &&& 127 ≠ (f1 vm).1 &&& 127 →
        rdReg (execOp vm 62) j = rdReg (f3 vm).2 j) ∧
    (rdReg (execOp vm 126) (f1 vm).1 =
        ((W - 1) - rdReg (f2 vm).2 (f2 vm).1) % W ∧
      ∀ j, j &&& 127 ≠ (f1 vm).1 &&& 127 →
        rdReg (execOp vm 126) j = rdReg (f2 vm).2 j) := by
  have h43 : execOp vm 43 = wrReg (f3 vm).2 (f1 vm).1
      (rdReg (f3 vm).2 (f2 vm).1 + rdReg (f3 vm).2 (f3 vm).1) := by
    unfold execOp f3 f2 f1; norm_num
  have h45 : execOp vm 45 = wrReg (f3 vm).2 (f1 vm).1
      (rdReg (f3 vm).2 (f2 vm).1 + (W - rdReg (f3 vm).2 (f3 vm).1)) := by
    unfold execOp f3 f2 f1; norm_num
  have h42 : execOp vm 42 = wrReg (f3 vm).2 (f1 vm).1
      (rdReg (f3 vm).2 (f2 vm).1 * rdReg (f3 vm).2 (f3 vm).1) := by
    unfold execOp f3 f2 f1; norm_num
  have h47 : execOp vm 47 = wrReg (f3 vm).2 (f1 vm).1
      (if rdReg (f3 vm).2 (f3 vm).1 ≠ 0 then
        rdReg (f3 vm).2 (f2 vm).1 / rdReg (f3 vm).2 (f3 vm).1 else 0) := by
    unfold execOp f3 f2 f1; norm_num
  have h37 : execOp vm 37 = wrReg (f3 vm).2 (f1 vm).1
      (if rdReg (f3 vm).2 (f3 vm).1 ≠ 0 then
        rdReg (f3 vm).2 (f2 vm).1 % rdReg (f3 vm).2 (f3 vm).1 else 0) := by
    unfold execOp f3 f2 f1; norm_num
  have h38 : execOp vm 38 = wrReg (f3 vm).2 (f1 vm).1
      (rdReg (f3 vm).2 (f2 vm).1 &&& rdReg (f3 vm).2 (f3 vm).1) := by
    unfold execOp f3 f2 f1; norm_num
  have h124 : execOp vm 124 = wrReg (f3 vm).2 (f1 vm).1
      (rdReg (f3 vm).2 (f2 vm).1 ||| rdReg (f3 vm).2 (f3 vm).1) := by
    unfold execOp f3 f2 f1; norm_num
  have h94 : execOp vm 94 = wrReg (f3 vm).2 (f1 vm).1
      (rdReg (f3 vm).2 (f2 vm).1 ^^^ rdReg (f3 vm).2 (f3 vm).1) := by
    unfold execOp f3 f2 f1; norm_num
  have h60 : execOp vm 60 = wrReg (f3 vm).2 (f1 vm).1
      (rdReg (f3 vm).2 (f2 vm).1 <<< rdReg (f3 vm).2 (f3 vm).1) := by
    unfold execOp f3 f2 f1; norm_num
  have h62 : execOp vm 62 = wrReg (f3 vm).2 (f1 vm).1
      (rdReg (f3 vm).2 (f2 vm).1 >>> rdReg (f3 vm).2 (f3 vm).1) := by
    unfold execOp f3 f2 f1; norm_num
  have h126 : execOp vm 126 = wrReg (f2 vm).2 (f1 vm).1
      ((W - 1) - rdReg (f2 vm).2 (f2 vm).1) := by
    unfold execOp f2 f1; norm_num
  exact ⟨⟨by rw [h43]; exact rdReg_wrReg_same _ _ rfl,
      fun j hj => by rw [h43]; exact rdReg_wrReg_other _ _ hj⟩,
    ⟨by rw [h45]; exact rdReg_wrReg_same _ _ rfl,
      fun j hj => by rw [h45]; exact rdReg_wrReg_other _ _ hj⟩,
    ⟨by rw [h42]; exact rdReg_wrReg_same _ _ rfl,
      fun j hj => by rw [h42]; exact rdReg_wrReg_other _ _ hj⟩,
    ⟨by rw [h47]; exact rdReg_wrReg_same _ _ rfl,
      fun j hj => by rw [h47]; exact rdReg_wrReg_other _ _ hj⟩,
    ⟨by rw [h37]; exact rdReg_wrReg_same _ _ rfl,
      fun j hj => by rw [h37]; exact rdReg_wrReg_other _ _ hj⟩,
    ⟨by rw [h38]; exact rdReg_wrReg_same _ _ rfl,
      fun j hj => by rw [h38]; exact rdReg_wrReg_other _ _ hj⟩,
    ⟨by rw [h124]; exact rdReg_wrReg_same _ _ rfl,
      fun j hj => by rw [h124]; exact rdReg_wrReg_other _ _ hj⟩,
    ⟨by rw [h94]; exact rdReg_wrReg_same _ _ rfl,
      fun j hj => by rw [h94]; exact rdReg_wrReg_other _ _ hj⟩,
    ⟨by rw [h60]; exact rdReg_wrReg_same _ _ rfl,
      fun j hj => by rw [h60]; exact rdReg_wrReg_other _ _ hj⟩,
    ⟨by rw [h62]; exact rdReg_wrReg_same _ _ rfl,
      fun j hj => by rw [h62]; exact rdReg_wrReg_other _ _ hj⟩,
    ⟨by rw [h126]; exact rdReg_wrReg_same _ _ rfl,
      fun j hj => by rw [h126]; exact rdReg_wrReg_other _ _ hj⟩⟩

/-- Witness for ops_read_before_write at the sample machine vmSmall:
the addition opcode writes the sum of the old operand values into the
destination register 97 and leaves register 98 as it was after the
operand fetches. -/
theorem ops_read_before_write_witness :
    rdReg (execOp vmSmall 43) (f1 vmSmall).1 =
      (rdReg (f3 vmSmall).2 (f2 vmSmall).1 +
        rdReg (f3 vmSmall).2 (f3 vmSmall).1) % W ∧
    rdReg (execOp vmSmall 43) 98 = rdReg (f3 vmSmall).2 98 :=
  ⟨(ops_read_before_write vmSmall).1.1,
    (ops_read_before_write vmSmall).1.2 98 (by decide)⟩

/-- C8, counterexample: running the program bytes 58 97 120 49 50 (load
into register a in hex mode, followed by the digit characters 1 and 2)
leaves register a holding 1, the value of the single hex digit 1 — not
18 = 16*1+2, the value the two-digit claim predicts.  The second digit
byte is executed as a (no-op) opcode instead. -/
theorem hex_two_digit_cex :
    (runFuel 3 (glyph_init (fun n => List.getD [58, 97, 120, 49, 50] n 0)
        8)).halt = true ∧
    rdReg (runFuel 3 (glyph_init (fun n => List.getD [58, 97, 120, 49, 50]
        n 0) 8)) 97 = 1 ∧
    (1 : Nat) ≠ 18 := by
  refine ⟨by decide, by decide, by decide⟩

/-- C8 (amended): the immediate-load opcode in hex mode (sub-mode byte
120) decodes exactly ONE hex-digit character into the destination
register: a digit character 48..57 loads its decimal value, a lowercase
97..102 or uppercase 65..70 letter loads 10..15, case-insensitively. -/
theorem hex_mode_one_digit (vm : GlyphW) (h : (f2 vm).1 = 120) :
    execOp vm 58 = wrReg (f3 vm).2 (f1 vm).1
      (if (f3 vm).1 ≤ 57 then (f3 vm).1 + (W - 48)
        else ((f3 vm).1 ||| 32) + 10 + (W - 97)) ∧
    (48 ≤ (f3 vm).1 ∧ (f3 vm).1 ≤ 57 →
      rdReg (execOp vm 58) (f1 vm).1 = (f3 vm).1 - 48) ∧
    (97 ≤ (f3 vm).1 ∧ (f3 vm).1 ≤ 102 →
      rdReg (execOp vm 58) (f1 vm).1 = (f3 vm).1 - 87) ∧
    (65 ≤ (f3 vm).1 ∧ (f3 vm).1 ≤ 70 →
      rdReg (execOp vm 58) (f1 vm).1 = (f3 vm).1 - 55) := by
  have heq : execOp vm 58 = wrReg (f3 vm).2 (f1 vm).1
      (if (f3 vm).1 ≤ 57 then (f3 vm).1 + (W - 48)
        else ((f3 vm).1 ||| 32) + 10 + (W - 97)) := by
    unfold execOp
    norm_num
    unfold f2 f1 at h
    unfold f3 f2 f1
    simp [h]
  refine ⟨heq, fun hd => ?_, fun hl => ?_, fun hu => ?_⟩
  · rw [heq, rdReg_wrReg_same _ _ rfl, if_pos hd.2]
    unfold W
    omega
  · have hor : (f3 vm).1 ||| 32 = (f3 vm).1 := by
      obtain ⟨hl1, hl2⟩ := hl
      interval_cases h : (f3 vm).1 <;> decide
    rw [heq, rdReg_wrReg_same _ _ rfl, if_neg (by omega), hor]
    unfold W
    omega
  · have hor : (f3 vm).1 ||| 32 = (f3 vm).1 + 32 := by
      obtain ⟨hu1, hu2⟩ := hu
      interval_cases h : (f3 vm).1 <;> decide
    rw [heq, rdReg_wrReg_same _ _ rfl, if_neg (by omega), hor]
    unfold W
    omega

/-- Witness for hex_mode_one_digit: loading the hex digit character 5
(byte 53) into register a yields 5. -/
theorem hex_mode_one_digit_witness :
    (f2 (glyph_init (fun n => List.getD [97, 120, 53] n 0) 8)).1 = 120 ∧
    48 ≤ (f3 (glyph_init (fun n => List.getD [97, 120, 53] n 0) 8)).1 ∧
    (f3 (glyph_init (fun n => List.getD [97, 120, 53] n 0) 8)).1 ≤ 57 ∧
    rdReg (execOp (glyph_init (fun n => List.getD [97, 120, 53] n 0) 8) 58)
        (f1 (glyph_init (fun n => List.getD [97, 120, 53] n 0) 8)).1 =
      (f3 (glyph_init (fun n => List.getD [97, 120, 53] n 0) 8)).1 - 48 :=
  ⟨by decide, by decide, by decide,
    (hex_mode_one_digit (glyph_init (fun n => List.getD [97, 120, 53] n 0) 8)
      (by decide)).2.1 ⟨by decide, by decide⟩⟩

/-- The opcode bytes of the case table of glyph_run. -/
def knownOpsW : List Nat :=
  [43, 45, 42, 47, 37, 38, 124, 94, 126, 60, 62, 58, 64, 33, 40, 41, 46,
   63, 59, 44, 0]

/-- C1, counterexample: the byte 36 (dollar sign) is not in the case
table, yet the engine does not halt on it: from the program bytes
36 58 97 103 7, after one step the machine is still running, and two
steps later the load instruction following the unknown byte has executed,
leaving register a holding 7 before the zero byte halts the machine.
The claim that an unknown opcode byte halts execution is false. -/
theorem unknown_op_no_halt_cex :
    (runFuel 1 (glyph_init (fun n => List.getD [36, 58, 97, 103, 7] n 0)
        8)).halt = false ∧
    rdReg (runFuel 3 (glyph_init (fun n => List.getD [36, 58, 97, 103, 7]
        n 0) 8)) 97 = 7 ∧
    (runFuel 3 (glyph_init (fun n => List.getD [36, 58, 97, 103, 7] n 0)
        8)).halt = true := by
  refine ⟨by decide, by decide, by decide⟩

/-- C1 (amended): a fetched opcode byte equal to zero sets the halt flag
and stops execution with no error raised (in the accumulator variant the
backtick byte 96 halts as well); an opcode byte not present in the case
table does NOT halt the three-operand engine — it is a no-op and
execution continues with the next instruction. -/
theorem zero_halts_unknown_continues (vm : GlyphW) (op : Nat)
    (hop : op ∉ knownOpsW) (vma : GlyphA)
    (eo ei : Option (Nat → GlyphA → GlyphA)) :
    execOp vm 0 = { vm with halt := true } ∧
    execOp vm op = vm ∧
    execA eo ei vma 0 = { vma with halt := true } ∧
    execA eo ei vma 96 = { vma with halt := true } := by
  refine ⟨by unfold execOp; norm_num, ?_, by unfold execA; norm_num,
    by unfold execA; norm_num⟩
  simp only [knownOpsW, List.mem_cons, not_or, List.not_mem_nil,
    not_false_iff, and_true] at hop
  obtain ⟨e1, e2, e3, e4, e5, e6, e7, e8, e9, e10, e11, e12, e13, e14,
    e15, e16, e17, e18, e19, e20, e21⟩ := hop
  unfold execOp
  simp [e1, e2, e3, e4, e5, e6, e7, e8, e9, e10, e11, e12, e13, e14, e15,
    e16, e17, e18, e19, e20, e21]

/-- A sample machine of the accumulator variant, all cells zero. -/
def vmA0 : GlyphA :=
  { m := fun _ => 0, r := fun _ => 0, s := fun _ => 0, p := fun _ => 0,
    T := 0, halt := false }

/-- Witness for zero_halts_unknown_continues at the unknown opcode 36. -/
theorem zero_halts_unknown_continues_witness :
    (36 : Nat) ∉ knownOpsW ∧
    (execOp vmSmall 0 = { vmSmall with halt := true } ∧
     execOp vmSmall 36 = vmSmall ∧
     execA none none vmA0 0 = { vmA0 with halt := true } ∧
     execA none none vmA0 96 = { vmA0 with halt := true }) :=
  ⟨by decide,
    zero_halts_unknown_continues vmSmall 36 (by decide) vmA0 none none⟩

theorem halt_getr (vm : GlyphA) (x : Nat) : (getr vm x).2.halt = vm.halt := by
  unfold getr
  split <;> rfl

theorem halt_setr (vm : GlyphA) (x v : Nat) :
    (setr vm x v).halt = vm.halt := by
  unfold setr
  split <;> rfl

theorem halt_nextA (vm : GlyphA) : (nextA vm).2.halt = vm.halt := by
  unfold nextA
  rw [halt_setr, halt_getr]

/-- The opcode bytes of the case table of glyph_eval (whitespace, digits,
and the named opcodes, including the backtick and zero halt bytes). -/
def definedOpsA : List Nat :=
  [32, 12, 10, 11, 13, 9, 48, 49, 50, 51, 52, 53, 54, 55, 56, 57, 61, 39,
   43, 45, 42, 47, 37, 38, 124, 94, 60, 62, 126, 64, 35, 63, 58, 59, 96, 0]

/-- C9: in the accumulator variant, a byte that selects no case of the
dispatch table executes as a two-byte register copy: the unrecognized
byte consumes the following operand byte and writes the value of the
register named by the unrecognized byte into the register named by the
operand byte, and the halt flag is untouched, so execution continues. -/
theorem unknown_byte_register_copy (eo ei : Option (Nat → GlyphA → GlyphA))
    (vm : GlyphA) (op : Nat) (hb : op < 256) (hop : op ∉ definedOpsA) :
    execA eo ei vm op =
      setr (getr (nextA vm).2 op).2 (nextA vm).1 (getr (nextA vm).2 op).1 ∧
    (execA eo ei vm op).halt = vm.halt := by
  have heq : execA eo ei vm op =
      setr (getr (nextA vm).2 op).2 (nextA vm).1 (getr (nextA vm).2 op).1 := by
    simp only [definedOpsA, List.mem_cons, not_or, List.not_mem_nil,
      not_false_iff, and_true] at hop
    obtain ⟨w1, w2, w3, w4, w5, w6, d0, d1, d2, d3, d4, d5, d6, d7, d8, d9,
      a1, a2, a3, a4, a5, a6, a7, a8, a9, a10, a11, a12, a13, a14, a15, a16,
      a17, a18, a19, a20⟩ := hop
    have hdig : ¬(48 ≤ op ∧ op ≤ 57) := by omega
    unfold execA
    simp [w1, w2, w3, w4, w5, w6, hdig, a1, a2, a3, a4, a5, a6, a7, a8, a9,
      a10, a11, a12, a13, a14, a15, a16, a17, a18, a19, a20]
  refine ⟨heq, ?_⟩
  rw [heq, halt_setr, halt_getr, halt_nextA]

/-- A sample machine for the register-copy opcode: its program is the
single operand byte 98, and the register named by the byte 107 holds 42. -/
def vmCopy : GlyphA :=
  { vmA0 with
      m := fun n => List.getD [98] n 0
      r := fun x => if x = 107 then 42 else 0 }

/-- Witness for unknown_byte_register_copy at the unrecognized byte 107. -/
theorem unknown_byte_register_copy_witness :
    (107 : Nat) < 256 ∧ (107 : Nat) ∉ definedOpsA ∧
    (execA none none vmCopy 107 =
        setr (getr (nextA vmCopy).2 107).2 (nextA vmCopy).1
          (getr (nextA vmCopy).2 107).1 ∧
      (execA none none vmCopy 107).halt = vmCopy.halt) ∧
    (execA none none vmCopy 107).r 98 = 42 :=
  ⟨by decide, by decide,
    unknown_byte_register_copy none none vmCopy 107 (by decide) (by decide),
    by decide⟩

/-- The state reached after the port-write opcode has stored the source
register value into the port slot addressed by the accumulator, before
the output callback runs. -/
def portStore (vm : GlyphA) : GlyphA :=
  let n2 := nextA (nextA vm).2
  let g := getr n2.2 n2.1
  { g.2 with p := upd g.2.p (accOf g.2) (g.1 % B) }

/-- The state reached after the input callback of the port-read opcode
has run, before the port slot is read. -/
def portRefresh (ei : Option (Nat → GlyphA → GlyphA)) (vm : GlyphA) :
    GlyphA :=
  let n2 := nextA (nextA vm).2
  appCb ei (accOf n2.2) n2.2

/-- C6: the port-write opcode (sub-mode byte 62) first stores the source
register value into the addressed slot of the 256-entry port array and
then invokes the output callback exactly once with the port number (the
accumulator); the port-read opcode (sub-mode byte 60) invokes the input
callback once with the port number before reading the stored slot value
into the destination register. -/
theorem port_io_callbacks (eo ei : Option (Nat → GlyphA → GlyphA))
    (vm : GlyphA) :
    ((nextA vm).1 = 62 →
      execA eo ei vm 35 =
        appCb eo (accOf (portStore vm)) (portStore vm) ∧
      (portStore vm).p (accOf (portStore vm)) =
        (getr (nextA (nextA vm).2).2 (nextA (nextA vm).2).1).1 % B) ∧
    ((nextA vm).1 = 60 →
      execA eo ei vm 35 =
        setr (portRefresh ei vm) (nextA (nextA vm).2).1
          ((portRefresh ei vm).p (accOf (portRefresh ei vm)) % B)) := by
  constructor
  · intro h62
    constructor
    · unfold execA
      norm_num
      unfold portStore
      simp [h62]
    · have hacc : accOf (portStore vm) =
          accOf (getr (nextA (nextA vm).2).2 (nextA (nextA vm).2).1).2 := rfl
      rw [hacc]
      exact upd_same _ _ _
  · intro h60
    unfold execA
    norm_num
    unfold portRefresh
    simp [h60]

/-- A sample machine for the port opcodes: program bytes 62 98 (the
sub-mode byte for a write and the register name b), accumulator 5,
register b holding 99. -/
def portVm : GlyphA :=
  { vmA0 with
      m := fun n => List.getD [62, 98] n 0
      r := fun x => if x = 61 then 5 else if x = 98 then 99 else 0 }

/-- A sample output callback recording the port number it was called
with into the register named by the byte 110. -/
def portCb : Option (Nat → GlyphA → GlyphA) :=
  some (fun pn st => setr st 110 pn)

/-- Witness for port_io_callbacks: writing the value 99 of register b to
port 5 leaves slot 5 of the port array holding 99, and the result is the
output callback applied once to the port number 5 and the stored state. -/
theorem port_io_callbacks_witness :
    (nextA portVm).1 = 62 ∧
    (execA portCb none portVm 35 =
        appCb portCb (accOf (portStore portVm)) (portStore portVm) ∧
      (portStore portVm).p (accOf (portStore portVm)) =
        (getr (nextA (nextA portVm).2).2 (nextA (nextA portVm).2).1).1 % B) ∧
    accOf (portStore portVm) = 5 ∧
    (portStore portVm).p 5 = 99 :=
  ⟨by decide, (port_io_callbacks portCb none portVm).1 (by decide),
    by decide, by decide⟩

theorem msize_lt (vm : GlyphW) : msize vm < W :=
  Nat.mod_lt _ (by norm_num [W])

theorem mem_skipWsAux (fuel : Nat) (vm : GlyphW) :
    (skipWsAux fuel vm).mem = vm.mem := by
  induction fuel generalizing vm with
  | zero => rfl
  | succ n ih =>
    unfold skipWsAux
    split
    · rw [ih]; rfl
    · rfl

theorem size_skipWsAux (fuel : Nat) (vm : GlyphW) :
    (skipWsAux fuel vm).size = vm.size := by
  induction fuel generalizing vm with
  | zero => rfl
  | succ n ih =>
    unfold skipWsAux
    split
    · rw [ih]; rfl
    · rfl

theorem mem_fetch (vm : GlyphW) : (fetch vm).2.mem = vm.mem := by
  unfold fetch
  by_cases h : pcOf (skipWs vm) < msize (skipWs vm)
  · simp only [h, if_true]
    exact mem_skipWsAux _ vm
  · simp only [h, if_false]
    exact mem_skipWsAux _ vm

theorem size_fetch (vm : GlyphW) : (fetch vm).2.size = vm.size := by
  unfold fetch
  by_cases h : pcOf (skipWs vm) < msize (skipWs vm)
  · simp only [h, if_true]
    exact size_skipWsAux _ vm
  · simp only [h, if_false]
    exact size_skipWsAux _ vm

theorem pcOf_stepPc (vm : GlyphW) : pcOf (stepPc vm) = (pcOf vm + 1) % W :=
  rdReg_wrReg_same vm _ rfl

/-- If the whitespace loop is given at least (size - PC) iterations, the
byte it stops on (when still in bounds) is not whitespace. -/
theorem skipWsAux_no_ws (fuel : Nat) (vm : GlyphW)
    (hf : msize vm - pcOf vm ≤ fuel) :
    pcOf (skipWsAux fuel vm) < msize (skipWsAux fuel vm) →
    isWs (memAt (skipWsAux fuel vm) (pcOf (skipWsAux fuel vm))) = false := by
  induction fuel generalizing vm with
  | zero =>
    intro hlt
    have h0 : skipWsAux 0 vm = vm := rfl
    rw [h0] at hlt
    exact absurd hlt (by omega)
  | succ n ih =>
    unfold skipWsAux
    split
    · rename_i hc
      apply ih
      have h1 : msize (stepPc vm) = msize vm := rfl
      have h2 : pcOf (stepPc vm) = pcOf vm + 1 := by
        rw [pcOf_stepPc]
        have := msize_lt vm
        exact Nat.mod_eq_of_lt (by omega)
      rw [h1, h2]
      omega
    · rename_i hc
      intro hlt
      rcases Bool.eq_false_or_eq_true (isWs (memAt vm (pcOf vm))) with h | h
      · exact absurd ⟨hlt, h⟩ hc
      · exact h

/-- C10 (amended): every fetch — opcode fetches and operand fetches go
through the same routine — skips whitespace, so the byte a fetch hands
to the dispatch loop or to an opcode as an operand is never an ASCII
whitespace character (at the end of the buffer the fetch returns the
halt byte 0, which is not whitespace either). -/
theorem fetch_never_whitespace (vm : GlyphW) : isWs (fetch vm).1 = false := by
  unfold fetch
  by_cases h : pcOf (skipWs vm) < msize (skipWs vm)
  · simp only [h, if_true]
    exact skipWsAux_no_ws _ vm (Nat.le_refl _) h
  · simp only [h, if_false]
    rfl

/-- C10, counterexample to whitespace-insertion invariance: the program
bytes 64 97 98 (read memory at the address in register b into register
a) leave register a holding 64 — the memory cell at address 0 is the
opcode byte itself.  Inserting a single space byte in front shifts the
program, so the same instruction reads 32 (the space) instead: both runs
halt, but the final register files differ, refuting the claim that
inserting whitespace between instruction bytes preserves the final
state. -/
theorem ws_insertion_changes_state :
    (runFuel 2 (glyph_init (fun n => List.getD [64, 97, 98] n 0) 8)).halt
        = true ∧
    (runFuel 2 (glyph_init (fun n => List.getD [32, 64, 97, 98] n 0)
        8)).halt = true ∧
    rdReg (runFuel 2 (glyph_init (fun n => List.getD [64, 97, 98] n 0) 8))
        97 = 64 ∧
    rdReg (runFuel 2 (glyph_init (fun n => List.getD [32, 64, 97, 98] n 0)
        8)) 97 = 32 ∧
    (64 : Nat) ≠ 32 := by
  refine ⟨by decide, by decide, by decide, by decide, by decide⟩

/-- C4: the memory instructions mask every address into the buffer, and
a masked address always lands inside a power-of-two buffer; storing the
byte value held in one register at the (arbitrary, possibly
out-of-bounds) address held in another, and then executing a memory read
of the same address with no intervening write, yields the stored value. -/
theorem mem_write_read_roundtrip (vm vr : GlyphW) (k : Nat)
    (hs : vm.size = 2 ^ k)
    (hv : rdReg (f2 vm).2 (f2 vm).1 < 256)
    (hm : vr.mem = (execOp vm 33).mem)
    (hsz : vr.size = vm.size)
    (haddr : rdReg (f2 vr).2 (f2 vr).1 = rdReg (f2 vm).2 (f1 vm).1) :
    rdReg (execOp vr 64) (f1 vr).1 = rdReg (f2 vm).2 (f2 vm).1 ∧
    (∀ x, x &&& (vm.size - 1) < vm.size) := by
  have hpos : 0 < vm.size := by rw [hs]; positivity
  have hmask : ∀ x, x &&& (vm.size - 1) < vm.size := by
    intro x
    rw [hs, Nat.and_pow_two_sub_one_eq_mod]
    exact Nat.mod_lt _ (by positivity)
  have h33 : execOp vm 33 = mwr (f2 vm).2 (rdReg (f2 vm).2 (f1 vm).1)
      (rdReg (f2 vm).2 (f2 vm).1) := by
    unfold execOp f2 f1
    norm_num
  have h64 : execOp vr 64 = wrReg (f2 vr).2 (f1 vr).1
      (mrd (f2 vr).2 (rdReg (f2 vr).2 (f2 vr).1)) := by
    unfold execOp f2 f1
    norm_num
  have hszw : (f2 vm).2.size = vm.size := by
    unfold f2 f1
    rw [size_fetch, size_fetch]
  have hszr : (f2 vr).2.size = vm.size := by
    unfold f2 f1
    rw [size_fetch, size_fetch, hsz]
  have hmemr : (f2 vr).2.mem = (execOp vm 33).mem := by
    unfold f2 f1
    rw [mem_fetch, mem_fetch, hm]
  constructor
  · rw [h64, rdReg_wrReg_same _ _ rfl]
    rw [h33] at hmemr
    unfold mrd memAt
    rw [haddr]
    have hidx : msize (f2 vr).2 = msize (f2 vm).2 := by
      unfold msize
      rw [hszr, hszw]
    rw [hidx, hmemr]
    have hmm : ∀ (w : GlyphW) (x v : Nat),
        (mwr w x v).mem = upd w.mem (x &&& (msize w - 1)) (v % B) :=
      fun _ _ _ => rfl
    rw [hmm, upd_same]
    have : rdReg (f2 vm).2 (f2 vm).1 % B % B = rdReg (f2 vm).2 (f2 vm).1 := by
      unfold B
      omega
    rw [this, Nat.mod_eq_of_lt (by unfold W; omega)]
  · exact hmask

/-- A machine about to execute the memory-write opcode: program bytes
97 98 (the operand register names), the address register a holding the
out-of-bounds address 300, the source register b holding the byte 77. -/
def vmMemW : GlyphW :=
  { mem := fun n => List.getD [97, 98] n 0
    size := 16
    reg := fun x => if x = 97 then 300 else if x = 98 then 77 else 0
    port := fun _ => 0
    halt := false }

/-- A machine about to execute the memory-read opcode on the memory left
by the write of vmMemW: same buffer, register b now holds the address
300, and the destination is register a. -/
def vmMemR : GlyphW :=
  { execOp vmMemW 33 with
      reg := fun x => if x = 98 then 300 else 0 }

/-- Witness for mem_write_read_roundtrip: the byte 77 written at the
masked address 300 is read back from address 300. -/
theorem mem_write_read_roundtrip_witness :
    vmMemW.size = 2 ^ 4 ∧
    rdReg (f2 vmMemW).2 (f2 vmMemW).1 < 256 ∧
    rdReg (f2 vmMemR).2 (f2 vmMemR).1 = rdReg (f2 vmMemW).2 (f1 vmMemW).1 ∧
    (rdReg (execOp vmMemR 64) (f1 vmMemR).1 =
        rdReg (f2 vmMemW).2 (f2 vmMemW).1 ∧
      ∀ x, x &&& (vmMemW.size - 1) < vmMemW.size) :=
  ⟨by decide, by decide, by decide,
    mem_write_read_roundtrip vmMemW vmMemR 4 (by decide)
      (by decide) rfl rfl (by decide)⟩

/-- Reassembling the four little-endian bytes of a 32-bit word. -/
theorem bytes_reassemble (x : Nat) (hx : x < W) :
    (x % B) ||| (((x >>> 8) % B) <<< 8) ||| (((x >>> 16) % B) <<< 16) |||
      (((x >>> 24) % B) <<< 24) = x := by
  have hB : B = 2 ^ 8 := by norm_num [B]
  have hW : W = 2 ^ 32 := by norm_num [W]
  apply Nat.eq_of_testBit_eq
  intro i
  simp only [Nat.testBit_or, hB, Nat.testBit_mod_two_pow,
    Nat.testBit_shiftLeft, Nat.testBit_shiftRight]
  by_cases h1 : i < 8
  · simp [h1, show ¬(8 ≤ i) by omega, show ¬(16 ≤ i) by omega,
      show ¬(24 ≤ i) by omega]
  · by_cases h2 : i < 16
    · have he : 8 + (i - 8) = i := by omega
      simp [show ¬(i < 8) by omega, show 8 ≤ i by omega,
        show i - 8 < 8 by omega, show ¬(16 ≤ i) by omega,
        show ¬(24 ≤ i) by omega, he]
    · by_cases h3 : i < 24
      · have he : 16 + (i - 16) = i := by omega
        simp [show ¬(i < 8) by omega, show ¬(i - 8 < 8) by omega,
          show 16 ≤ i by omega, show i - 16 < 8 by omega,
          show ¬(24 ≤ i) by omega, he]
      · by_cases h4 : i < 32
        · have he : 24 + (i - 24) = i := by omega
          simp [show ¬(i < 8) by omega, show ¬(i - 8 < 8) by omega,
            show ¬(i - 16 < 8) by omega, show 24 ≤ i by omega,
            show i - 24 < 8 by omega, he]
        · have hz : x.testBit i = false := by
            apply Nat.testBit_lt_two_pow
            calc x < W := hx
            _ = 2 ^ 32 := hW
            _ ≤ 2 ^ i := Nat.pow_le_pow_right (by norm_num) (by omega)
          simp [show ¬(i < 8) by omega, show ¬(i - 8 < 8) by omega,
            show ¬(i - 16 < 8) by omega, show ¬(i - 24 < 8) by omega, hz]

theorem spOf_mwr (vm : GlyphW) (x v : Nat) : spOf (mwr vm x v) = spOf vm :=
  rfl

theorem pcOf_mwr (vm : GlyphW) (x v : Nat) : pcOf (mwr vm x v) = pcOf vm :=
  rfl

theorem msize_mwr (vm : GlyphW) (x v : Nat) : msize (mwr vm x v) = msize vm :=
  rfl

theorem msize_wrReg2 (vm : GlyphW) (x v : Nat) :
    msize (wrReg vm x v) = msize vm := rfl

theorem mem_mwr (vm : GlyphW) (x v : Nat) :
    (mwr vm x v).mem = upd vm.mem (x &&& (msize vm - 1)) (v % B) := rfl

/-- Four consecutive addresses are pairwise distinct modulo n when
4 ≤ n. -/
theorem four_distinct_mod {n : Nat} (s i j : Nat) (hn : 4 ≤ n)
    (hi : i < 4) (hj : j < 4) (hne : i ≠ j) : (s + i) % n ≠ (s + j) % n := by
  intro h
  have hmodeq : i ≡ j [MOD n] := Nat.ModEq.add_left_cancel' s h
  have heq : i % n = j % n := hmodeq
  rw [Nat.mod_eq_of_lt (by omega), Nat.mod_eq_of_lt (by omega)] at heq
  exact hne heq

/-- C3: the call opcode pushes the address of the byte following its
operand byte; from any later state w whose stack pointer still equals
the post-call stack pointer and whose four pushed stack bytes are
untouched — which covers any intervening computation whose stack
operations are balanced, in particular arbitrarily nested call/return
pairs up to the capacity of the in-memory stack — executing the return
opcode sets the program counter exactly to the byte following the call
instruction operand and restores the stack pointer to its value before
the call. -/
theorem call_return_roundtrip (vm w : GlyphW) (k : Nat)
    (hs : vm.size = 2 ^ k) (hk2 : 2 ≤ k) (hk31 : k ≤ 31)
    (hwsz : w.size = vm.size)
    (hwsp : spOf w = spOf (execOp vm 59))
    (hwm0 : w.mem (((spOf (execOp vm 59) + 0) % W) &&& (vm.size - 1)) =
      (execOp vm 59).mem (((spOf (execOp vm 59) + 0) % W) &&& (vm.size - 1)))
    (hwm1 : w.mem (((spOf (execOp vm 59) + 1) % W) &&& (vm.size - 1)) =
      (execOp vm 59).mem (((spOf (execOp vm 59) + 1) % W) &&& (vm.size - 1)))
    (hwm2 : w.mem (((spOf (execOp vm 59) + 2) % W) &&& (vm.size - 1)) =
      (execOp vm 59).mem (((spOf (execOp vm 59) + 2) % W) &&& (vm.size - 1)))
    (hwm3 : w.mem (((spOf (execOp vm 59) + 3) % W) &&& (vm.size - 1)) =
      (execOp vm 59).mem (((spOf (execOp vm 59) + 3) % W) &&& (vm.size - 1))) :
    pcOf (execOp w 44) = pcOf (f1 vm).2 ∧
    spOf (execOp w 44) = spOf (f1 vm).2 := by
  have hWpow : W = 2 ^ 32 := by norm_num [W]
  have hdvd : (2 : Nat) ^ k ∣ W := by
    rw [hWpow]
    exact pow_dvd_pow 2 (by omega)
  have h2klt : (2 : Nat) ^ k < W := by
    rw [hWpow]
    exact Nat.pow_lt_pow_right (by norm_num) (by omega)
  have h4le : 4 ≤ 2 ^ k := by
    calc (4 : Nat) = 2 ^ 2 := by norm_num
    _ ≤ 2 ^ k := Nat.pow_le_pow_right (by norm_num) hk2
  set P := (fetch vm).2 with hP
  set q1 := wrReg P 44 (spOf P + (W - 4)) with hq1
  set q2 := mwr q1 ((spOf q1 + 0) % W) (pcOf q1) with hq2
  set q3 := mwr q2 ((spOf q2 + 1) % W) (pcOf q2 >>> 8) with hq3
  set q4 := mwr q3 ((spOf q3 + 2) % W) (pcOf q3 >>> 16) with hq4
  set q5 := mwr q4 ((spOf q4 + 3) % W) (pcOf q4 >>> 24) with hq5
  have h59 : execOp vm 59 = wrReg q5 46 (rdReg q5 (fetch vm).1) := by
    rw [hq5, hq4, hq3, hq2, hq1, hP]
    rfl
  have hspP : spOf P < W := rdReg_lt _ _
  have hretlt : pcOf P < W := rdReg_lt _ _
  set spC := (spOf P + (W - 4)) % W with hspCdef
  have hsp1 : spOf q1 = spC := by
    rw [hq1]
    exact rdReg_wrReg_same _ _ rfl
  have hpc1 : pcOf q1 = pcOf P := by
    rw [hq1]
    exact pcOf_wrReg_ne _ _ (by decide)
  have hspC : spOf (execOp vm 59) = spC := by
    rw [h59, spOf_wrReg_ne _ _ (by decide), hq5, spOf_mwr, hq4, spOf_mwr,
      hq3, spOf_mwr, hq2, spOf_mwr, hsp1]
  have hszP : P.size = vm.size := by rw [hP]; exact size_fetch vm
  have hmsP : msize P = 2 ^ k := by
    unfold msize
    rw [hszP, hs]
    exact Nat.mod_eq_of_lt h2klt
  have hidx : ∀ y : Nat, ((y % W) &&& (2 ^ k - 1)) = y % 2 ^ k := by
    intro y
    rw [Nat.and_pow_two_sub_one_eq_mod]
    exact Nat.mod_mod_of_dvd y hdvd
  have hmemeq : (execOp vm 59).mem =
      upd (upd (upd (upd P.mem ((spC + 0) % 2 ^ k) (pcOf P % B))
        ((spC + 1) % 2 ^ k) ((pcOf P >>> 8) % B))
        ((spC + 2) % 2 ^ k) ((pcOf P >>> 16) % B))
        ((spC + 3) % 2 ^ k) ((pcOf P >>> 24) % B) := by
    rw [h59, mem_wrReg, hq5, hq4, hq3, hq2]
    simp only [mem_mwr, spOf_mwr, pcOf_mwr, msize_mwr]
    rw [hq1]
    simp only [mem_wrReg, msize_wrReg2]
    have hspw : spOf (wrReg P 44 (spOf P + (W - 4))) = spC :=
      rdReg_wrReg_same _ _ rfl
    have hpcw : pcOf (wrReg P 44 (spOf P + (W - 4))) = pcOf P :=
      pcOf_wrReg_ne _ _ (by decide)
    rw [hspw, hpcw, hmsP, hidx, hidx, hidx, hidx]
  have hr0 : (execOp vm 59).mem ((spC + 0) % 2 ^ k) = pcOf P % B := by
    rw [hmemeq,
      upd_other _ _ _ (four_distinct_mod spC 0 3 h4le (by omega) (by omega)
        (by omega)),
      upd_other _ _ _ (four_distinct_mod spC 0 2 h4le (by omega) (by omega)
        (by omega)),
      upd_other _ _ _ (four_distinct_mod spC 0 1 h4le (by omega) (by omega)
        (by omega)),
      upd_same]
  have hr1 : (execOp vm 59).mem ((spC + 1) % 2 ^ k) = (pcOf P >>> 8) % B := by
    rw [hmemeq,
      upd_other _ _ _ (four_distinct_mod spC 1 3 h4le (by omega) (by omega)
        (by omega)),
      upd_other _ _ _ (four_distinct_mod spC 1 2 h4le (by omega) (by omega)
        (by omega)),
      upd_same]
  have hr2 : (execOp vm 59).mem ((spC + 2) % 2 ^ k) =
      (pcOf P >>> 16) % B := by
    rw [hmemeq,
      upd_other _ _ _ (four_distinct_mod spC 2 3 h4le (by omega) (by omega)
        (by omega)),
      upd_same]
  have hr3 : (execOp vm 59).mem ((spC + 3) % 2 ^ k) =
      (pcOf P >>> 24) % B := by
    rw [hmemeq, upd_same]
  set b0 := mrd w ((spOf w + 0) % W) with hb0
  set b1 := mrd w ((spOf w + 1) % W) with hb1
  set b2 := mrd w ((spOf w + 2) % W) with hb2
  set b3 := mrd w ((spOf w + 3) % W) with hb3
  set pcv := b0 ||| (b1 <<< 8) ||| (b2 <<< 16) ||| (b3 <<< 24) with hpcv
  set r1 := wrReg w 46 pcv with hr1d
  have h44 : execOp w 44 = wrReg r1 44 (spOf r1 + 4) := by
    rw [hr1d, hpcv, hb0, hb1, hb2, hb3]
    rfl
  have hmsw : msize w = 2 ^ k := by
    unfold msize
    rw [hwsz, hs]
    exact Nat.mod_eq_of_lt h2klt
  have hwm0' := hwm0
  have hwm1' := hwm1
  have hwm2' := hwm2
  have hwm3' := hwm3
  rw [hs, hspC, hidx] at hwm0' hwm1' hwm2' hwm3'
  have hbv : ∀ i v : Nat,
      (execOp vm 59).mem ((spC + i) % 2 ^ k) = v % B →
      w.mem ((spC + i) % 2 ^ k) = v % B →
      mrd w ((spOf w + i) % W) = v % B := by
    intro i v hv hw
    unfold mrd memAt
    rw [hmsw, hidx, hwsp, hspC, hw]
    unfold B
    omega
  have hb0v : b0 = pcOf P % B := by
    rw [hb0]
    exact hbv 0 (pcOf P) hr0 (by rw [hwm0']; exact hr0)
  have hb1v : b1 = (pcOf P >>> 8) % B := by
    rw [hb1]
    exact hbv 1 (pcOf P >>> 8) hr1 (by rw [hwm1']; exact hr1)
  have hb2v : b2 = (pcOf P >>> 16) % B := by
    rw [hb2]
    exact hbv 2 (pcOf P >>> 16) hr2 (by rw [hwm2']; exact hr2)
  have hb3v : b3 = (pcOf P >>> 24) % B := by
    rw [hb3]
    exact hbv 3 (pcOf P >>> 24) hr3 (by rw [hwm3']; exact hr3)
  have hpcveq : pcv = pcOf P := by
    rw [hpcv, hb0v, hb1v, hb2v, hb3v]
    exact bytes_reassemble (pcOf P) hretlt
  constructor
  · rw [h44, pcOf_wrReg_ne _ _ (by decide), hr1d]
    rw [show pcOf (wrReg w 46 pcv) = pcv % W from rdReg_wrReg_same _ _ rfl]
    rw [hpcveq, Nat.mod_eq_of_lt hretlt]
    show pcOf P = pcOf (f1 vm).2
    rw [hP]
    rfl
  · rw [h44]
    rw [show spOf (wrReg r1 44 (spOf r1 + 4)) = (spOf r1 + 4) % W from
      rdReg_wrReg_same _ _ rfl]
    rw [hr1d, spOf_wrReg_ne _ _ (by decide), hwsp, hspC, hspCdef]
    show ((spOf P + (W - 4)) % W + 4) % W = spOf (f1 vm).2
    have hW4 : W = 4294967296 := rfl
    have hgoal : ((spOf P + (W - 4)) % W + 4) % W = spOf P := by
      rw [hW4] at hspP
      rw [hW4]
      omega
    rw [hgoal, hP]
    rfl

/-- A machine about to execute the call opcode operand: a 16-byte buffer
holding the bytes 59 97 44 (the call opcode, the operand register name a,
and the return opcode), the program counter at the operand byte, and
register a holding the call target 2. -/
def vmCall : GlyphW :=
  { mem := fun n => List.getD [59, 97, 44] n 0
    size := 16
    reg := fun x => if x = 46 then 1 else if x = 97 then 2 else 0
    port := fun _ => 0
    halt := false }

/-- Witness for call_return_roundtrip: calling from vmCall and returning
immediately puts the program counter back at the byte after the call
operand and restores the stack pointer. -/
theorem call_return_roundtrip_witness :
    vmCall.size = 2 ^ 4 ∧
    (pcOf (execOp (execOp vmCall 59) 44) = pcOf (f1 vmCall).2 ∧
     spOf (execOp (execOp vmCall 59) 44) = spOf (f1 vmCall).2) :=
  ⟨by decide,
    call_return_roundtrip vmCall (execOp vmCall 59) 4 (by decide) (by decide)
      (by decide) (by decide) rfl rfl rfl rfl rfl⟩

/-- Witness for div_mod_by_zero at the sample machine vmSmall. -/
theorem div_mod_by_zero_witness :
    rdReg (f3 vmSmall).2 (f3 vmSmall).1 = 0 ∧
    (execOp vmSmall 47 = wrReg (f3 vmSmall).2 (f1 vmSmall).1 0 ∧
     execOp vmSmall 37 = wrReg (f3 vmSmall).2 (f1 vmSmall).1 0 ∧
     (execOp vmSmall 47).halt = (f3 vmSmall).2.halt ∧
     (execOp vmSmall 37).halt = (f3 vmSmall).2.halt ∧
     ((f1 vmSmall).1 &&& 127 ≠ 46 →
       pcOf (execOp vmSmall 47) = pcOf (f3 vmSmall).2 ∧
       pcOf (execOp vmSmall 37) = pcOf (f3 vmSmall).2)) :=
  ⟨by decide, div_mod_by_zero vmSmall (by decide)⟩

end Glyph
